import Mathlib

/-!
Verification of `arch/arm/mach-msm/clock-debug.c`: a debugfs shim that
exposes clock-framework operations (rate get/set, enable/disable,
measurement, rate enumeration) as virtual files, one directory per clock.

The C file is embedded shallowly:
  * the debug filesystem is a list of paths (each path a `List String` of
    components); `debugfs_create_dir` / `debugfs_create_file` consume an
    allocation oracle `alloc : Nat → Bool` that decides whether each
    successive creation call succeeds (success adds the path, failure
    models a NULL return);
  * `debugfs_remove_recursive` removes a path and everything below it;
  * clock-framework callbacks (`clk->ops->*`, `clk_set_rate`, ...) are
    opaque collaborators, modelled as function-valued fields of the clock;
  * file handlers return their C result together with a log of the
    clock-framework calls they made, so that "the handler invokes X" is
    a statement about the log.
-/

namespace ClockDebug

/-- The calls a debug handler can make into the external clock framework.
Each constructor records one invocation of the named collaborator. -/
inductive ClkCall where
  | setRateC (v : Nat)
  | setMinRateC (v : Nat)
  | setMaxRateC (v : Nat)
  | getRateC
  | enableC
  | disableC
  | isEnabledC (id : Nat)
  | measureRateC (id : Nat)
  deriving DecidableEq, Repr

/-- Modelled from the spec: `struct clk_ops` lives in the missing header
`clock.h`; the spec treats its members as an opaque operation table with
the operations named here. `measure_rate` and `list_rate` are the two
members `clock-debug.c` tests against NULL, so they are `Option`s; the
others are called unconditionally. `tag` stands for the address of the
table, so that the pointer comparison `ops != &clk_ops_remote` becomes a
comparison of tags. -/
structure ClkOps where
  tag : Nat
  enable : Nat → Int
  disable : Nat → Unit
  is_enabled : Nat → Int
  measure_rate : Option (Nat → Int)
  list_rate : Option (Nat → Nat → Int)

/-- Modelled from the spec: the "remote" marker operation table
(`clk_ops_remote`), declared in the missing `clock.h`.  Only its address
identity matters to `clock-debug.c`; it is given tag 0 and inert members. -/
def clk_ops_remote : ClkOps :=
  { tag := 0
    enable := fun _ => 0
    disable := fun _ => ()
    is_enabled := fun _ => 0
    measure_rate := none
    list_rate := none }

/-- Modelled from the spec: `CLK_MIN` flag bit from the missing `clock.h`.
Only its distinctness from `CLK_MAX` matters here. -/
def CLK_MIN : Nat := 32

/-- Modelled from the spec: `CLK_MAX` flag bit from the missing `clock.h`. -/
def CLK_MAX : Nat := 64

/-- Modelled from the spec: `struct clk` from the missing `clock.h`, with
the fields `clock-debug.c` reads (`id`, `dbg_name`, `flags`, `ops`) plus
the behaviour of the external wrappers `clk_set_rate`, `clk_set_min_rate`,
`clk_set_max_rate` and `clk_get_rate` applied to this clock, which the
spec treats as opaque collaborators. -/
structure Clk where
  id : Nat
  dbg_name : String
  flags : Nat
  ops : ClkOps
  set_rate : Nat → Int
  set_min_rate : Nat → Int
  set_max_rate : Nat → Int
  get_rate : Nat

/-- `-ENOMEM`, the only error code the file returns. -/
def ENOMEM : Int := 12

/-- Cast of a C `int` result into the `u64` out-parameter of a simple
attribute read handler (two's-complement reduction mod 2^64). -/
def u64ofInt (i : Int) : Nat := (i % (2 ^ 64 : Int)).toNat

/-- `clock_debug_rate_set` (clock-debug.c:25-42): write handler of the
`rate` file.  Note the first `if` has no `else`: when `CLK_MAX` is set the
handler calls `clk_set_max_rate` (result discarded) and then still falls
into the `CLK_MIN` test, calling `clk_set_min_rate` or `clk_set_rate` as
well; `ret` comes from that second call. -/
def clock_debug_rate_set (clock : Clk) (val : Nat) : Int × List ClkCall :=
  let maxCalls :=
    if clock.flags &&& CLK_MAX ≠ 0 then
      let _ := clock.set_max_rate val
      [ClkCall.setMaxRateC val]
    else []
  if clock.flags &&& CLK_MIN ≠ 0 then
    (clock.set_min_rate val, maxCalls ++ [ClkCall.setMinRateC val])
  else
    (clock.set_rate val, maxCalls ++ [ClkCall.setRateC val])

/-- `clock_debug_rate_get` (clock-debug.c:44-49): read handler of the
`rate` file; stores `clk_get_rate(clock)` and returns 0. -/
def clock_debug_rate_get (clock : Clk) : (Int × Nat) × List ClkCall :=
  ((0, clock.get_rate), [ClkCall.getRateC])

/-- `clock_debug_measure_get` (clock-debug.c:54-59): read handler of the
`measure` file; dereferences `clock->ops->measure_rate`, so the result is
`none` (a NULL-pointer call) when that member is absent. -/
def clock_debug_measure_get (clock : Clk) : Option ((Int × Nat) × List ClkCall) :=
  match clock.ops.measure_rate with
  | none => none
  | some f => some ((0, u64ofInt (f clock.id)), [ClkCall.measureRateC clock.id])

/-- `clock_debug_enable_set` (clock-debug.c:64-75): write handler of the
`enable` file; nonzero calls `enable` (returning its result), zero calls
`disable` (result `rc` stays 0). -/
def clock_debug_enable_set (clock : Clk) (val : Nat) : Int × List ClkCall :=
  if val ≠ 0 then
    (clock.ops.enable clock.id, [ClkCall.enableC])
  else
    let _ := clock.ops.disable clock.id
    (0, [ClkCall.disableC])

/-- `clock_debug_enable_get` (clock-debug.c:77-84): read handler of the
`enable` file; stores `is_enabled(id)` cast to u64 and returns 0. -/
def clock_debug_enable_get (clock : Clk) : (Int × Nat) × List ClkCall :=
  ((0, u64ofInt (clock.ops.is_enabled clock.id)), [ClkCall.isEnabledC clock.id])

/-- `clock_debug_local_get` (clock-debug.c:89-96): read handler of the
`is_local` file; stores the boolean `clock->ops != &clk_ops_remote` (1 or
0, via the tag model of table addresses) and returns 0. -/
def clock_debug_local_get (clock : Clk) : (Int × Nat) × List ClkCall :=
  ((0, if clock.ops.tag ≠ clk_ops_remote.tag then 1 else 0), [])

/-- A `DEFINE_SIMPLE_ATTRIBUTE` file-operations table: an optional read
handler, an optional write handler and the printf format. `NULL` handlers
are `none`. Read handlers are `Option`-valued because `measure`'s can
dereference a NULL member. -/
structure SimpleAttr where
  getH : Option (Clk → Option ((Int × Nat) × List ClkCall))
  setH : Option (Clk → Nat → Int × List ClkCall)
  fmt : String

/-- `clock_rate_fops` (clock-debug.c:51-52). -/
def clock_rate_fops : SimpleAttr :=
  { getH := some (fun c => some (clock_debug_rate_get c))
    setH := some clock_debug_rate_set
    fmt := "%llu\n" }

/-- `clock_measure_fops` (clock-debug.c:61-62): no write handler. -/
def clock_measure_fops : SimpleAttr :=
  { getH := some clock_debug_measure_get
    setH := none
    fmt := "%lld\n" }

/-- `clock_enable_fops` (clock-debug.c:86-87). -/
def clock_enable_fops : SimpleAttr :=
  { getH := some (fun c => some (clock_debug_enable_get c))
    setH := some clock_debug_enable_set
    fmt := "%llu\n" }

/-- `clock_local_fops` (clock-debug.c:98-99): no write handler. -/
def clock_local_fops : SimpleAttr :=
  { getH := some (fun c => some (clock_debug_local_get c))
    setH := none
    fmt := "%llu\n" }

/-- `tolower` from `linux/ctype.h`: map `A`..`Z` to lowercase, leave every
other byte unchanged. -/
def lowerChar (c : Char) : Char :=
  if 'A' ≤ c ∧ c ≤ 'Z' then Char.ofNat (c.toNat + 32) else c

/-- Apply `lowerChar` to every character (the `for (ptr = temp; ...)`
lowercasing loop of `clock_debug_add`). -/
def lowerStr (s : String) : String := String.mk (s.data.map lowerChar)

/-- The per-clock directory name computed by `clock_debug_add`
(clock-debug.c:167-175): `strncpy` into `char temp[50]` with count
`ARRAY_SIZE(temp)-1 = 49`, then byte-wise `tolower`.  When `dbg_name` has
at most 48 characters, `strncpy` NUL-terminates `temp` and the name is
the whole `dbg_name` lowercased.  When it has 49 or more, `strncpy`
copies 49 bytes and leaves `temp` unterminated with `temp[49]`
uninitialized, so the lowercasing loop and `debugfs_create_dir` read
indeterminate memory: the result is undefined, modelled as `none`. -/
def debugfsName (s : String) : Option String :=
  if s.length ≤ 48 then some (lowerStr s) else none

/-- `debugfs_remove_recursive`: remove the node at path `d` and every
node below it. -/
def removeRecursive (fs : List (List String)) (d : List String) : List (List String) :=
  fs.filter fun q => !(List.isPrefixOf d q)

/-- The sequence of file-creation attempts of `clock_debug_add`
(clock-debug.c:181-201): `rate`, `enable` and `is_local` unconditionally,
then `measure` only when `measure_rate` is implemented, then `list_rates`
only when `list_rate` is implemented. -/
def fileNames (ops : ClkOps) : List String :=
  ["rate", "enable", "is_local"]
    ++ (if ops.measure_rate.isSome then ["measure"] else [])
    ++ (if ops.list_rate.isSome then ["list_rates"] else [])

/-- Create the files `names` under directory `d` in order, consuming the
allocation oracle from index `i`.  Returns `false` together with the
filesystem as it stands at the first failing creation (the partial state
that `clock_debug_add` then removes), or `true` with all files added. -/
def createFiles (alloc : Nat → Bool) (i : Nat) (d : List String)
    (fs : List (List String)) : List String → Bool × List (List String)
  | [] => (true, fs)
  | n :: rest =>
    if alloc i then createFiles alloc (i + 1) d ((d ++ [n]) :: fs) rest
    else (false, fs)

/-- `clock_debug_add` (clock-debug.c:165-207).  `base` is the global
`debugfs_base` (`none` = NULL), `fs` the current debug filesystem, and
the allocation oracle decides each creation call (index 0 the directory,
then the files in order).  Returns `none` when the directory-name
computation hits the unterminated-buffer undefined behaviour, otherwise
the C return value and the new filesystem.  The function reads no clock
state other than `dbg_name` and the two NULL-tests on `ops`, and invokes
no clock operation. -/
def clock_debug_add (alloc : Nat → Bool) (base : Option (List String))
    (fs : List (List String)) (clock : Clk) : Option (Int × List (List String)) :=
  match base with
  | none => some (-ENOMEM, fs)
  | some b =>
    match debugfsName clock.dbg_name with
    | none => none
    | some nm =>
      if alloc 0 then
        let d := b ++ [nm]
        let r := createFiles alloc 1 d (d :: fs) (fileNames clock.ops)
        if r.1 then some (0, r.2)
        else some (-ENOMEM, removeRecursive r.2 d)
      else some (-ENOMEM, fs)

/-- The root directory path created by `clock_debug_init`. -/
def clkRoot : List String := ["clk"]

/-- `clock_debug_init` (clock-debug.c:105-117).  Oracle index 0 is the
`clk` root directory, index 1 the `debug_suspend` u32 file.  Returns the
C return value, the resulting `debugfs_base` global and the filesystem.
On the second failure the partially created root is removed recursively,
but the (now dangling) `debugfs_base` global keeps pointing at it. -/
def clock_debug_init (alloc : Nat → Bool) (fs : List (List String)) :
    Int × Option (List String) × List (List String) :=
  if alloc 0 then
    let fs1 := clkRoot :: fs
    if alloc 1 then (0, some clkRoot, (clkRoot ++ ["debug_suspend"]) :: fs1)
    else (-ENOMEM, some clkRoot, removeRecursive fs1 clkRoot)
  else (-ENOMEM, none, fs)

/-- `clock_debug_print_enabled` (clock-debug.c:119-140).  `ds` is the
`debug_suspend` global, `clocks` the clock list.  Returns the printed
lines and the log of clock-framework calls: nothing at all when `ds` is
0, otherwise one `is_enabled` query per clock in list order, a header, a
tab-indented name line per enabled clock, and a final count line (or the
no-clocks message when the count is 0). -/
def clock_debug_print_enabled (ds : Nat) (clocks : List Clk) :
    List String × List ClkCall :=
  if ds = 0 then ([], [])
  else
    let enabled := clocks.filter fun c => c.ops.is_enabled c.id != 0
    let finalLine :=
      if enabled.length = 0 then "No clocks enabled."
      else "Enabled clock count: " ++ toString enabled.length
    ("Enabled clocks:" :: enabled.map (fun c => "\t" ++ c.dbg_name) ++ [finalLine],
     clocks.map fun c => ClkCall.isEnabledC c.id)

/-- The `while ((rate = clock->ops->list_rate(clock->id, i++)) >= 0)` loop
of `list_rates_show` (clock-debug.c:142-151), starting at index `i` with
the given fuel: `none` means the loop has not terminated within `fuel`
iterations, `some l` that it terminated printing the lines `l`. -/
def listRatesLoop (lr : Nat → Int) : Nat → Nat → Option (List Int)
  | _, 0 => none
  | i, fuel + 1 =>
    if lr i < 0 then some []
    else
      match listRatesLoop lr (i + 1) fuel with
      | none => none
      | some rest => some (lr i :: rest)

/-- `list_rates_show` (clock-debug.c:142-151) applied to the clock's
`list_rate` callback `lr` with the given iteration fuel. -/
def list_rates_show (lr : Nat → Int) (fuel : Nat) : Option (List Int) :=
  listRatesLoop lr 0 fuel

/-! Helper lemmas about the debugfs model. -/

theorem isPrefixOf_append_true (d t : List String) :
    List.isPrefixOf d (d ++ t) = true := by
  simp [List.isPrefixOf_iff_prefix]

theorem removeRecursive_fresh (fs : List (List String)) (d : List String)
    (hfresh : ∀ p ∈ fs, List.isPrefixOf d p = false) :
    removeRecursive fs d = fs := by
  unfold removeRecursive
  apply List.filter_eq_self.mpr
  intro a ha
  simp [hfresh a ha]

theorem removeRecursive_cons_self (fs : List (List String)) (d : List String) :
    removeRecursive (d :: fs) d = removeRecursive fs d := by
  have h : List.isPrefixOf d d = true := by
    simp [List.isPrefixOf_iff_prefix]
  simp [removeRecursive, h]

theorem createFiles_filter (alloc : Nat → Bool) (d : List String) :
    ∀ (names : List String) (i : Nat) (fs : List (List String)),
      ((createFiles alloc i d fs names).2).filter (fun q => !(List.isPrefixOf d q)) =
        fs.filter (fun q => !(List.isPrefixOf d q)) := by
  intro names
  induction names with
  | nil => intro i fs; rfl
  | cons n rest ih =>
    intro i fs
    by_cases h : alloc i = true
    · have hpre := isPrefixOf_append_true d [n]
      simp [createFiles, h, ih (i + 1) ((d ++ [n]) :: fs), hpre]
    · simp [createFiles, h]

theorem createFiles_all_success (alloc : Nat → Bool) (hall : ∀ i, alloc i = true)
    (d : List String) :
    ∀ (names : List String) (i : Nat) (fs : List (List String)),
      createFiles alloc i d fs names =
        (true, (names.reverse.map fun n => d ++ [n]) ++ fs) := by
  intro names
  induction names with
  | nil => intro i fs; rfl
  | cons n rest ih =>
    intro i fs
    simp [createFiles, hall i, ih (i + 1) ((d ++ [n]) :: fs)]

/-! Sample clocks used to instantiate theorems at concrete inputs. -/

/-- A concrete operation table with every operation implemented. -/
def sampleOps : ClkOps :=
  { tag := 1
    enable := fun _ => 0
    disable := fun _ => ()
    is_enabled := fun _ => 1
    measure_rate := some fun _ => 7
    list_rate := some fun _ i => if i < 2 then 7 else -1 }

/-- A concrete clock with no flags set. -/
def sampleClk : Clk :=
  { id := 3
    dbg_name := "UART_CLK"
    flags := 0
    ops := sampleOps
    set_rate := fun _ => 0
    set_min_rate := fun _ => 0
    set_max_rate := fun _ => 0
    get_rate := 19200000 }

/-- `sampleClk` with only the `CLK_MAX` flag set. -/
def sampleMaxClk : Clk := { sampleClk with flags := CLK_MAX }

/-! Claim theorems. -/

/-- C1, counterexample: with only `CLK_MAX` set, a rate write does not
invoke just `clk_set_max_rate` — the missing `else` makes it also invoke
`clk_set_rate`, so the handler does not call "one of" the three setters
selected by the flags. -/
theorem clock_debug_rate_set_not_exclusive :
    (clock_debug_rate_set sampleMaxClk 5).2 ≠ [ClkCall.setMaxRateC 5] ∧
    (clock_debug_rate_set sampleMaxClk 5).2 =
      [ClkCall.setMaxRateC 5, ClkCall.setRateC 5] := by
  constructor <;> decide

/-- C1, amended: a rate write invokes `clk_set_max_rate` first whenever
`CLK_MAX` is set (its result discarded), and in every case additionally
invokes `clk_set_min_rate` when `CLK_MIN` is set or `clk_set_rate`
otherwise, returning that second call's result; a rate read invokes
`clk_get_rate` and stores its result, returning status 0. -/
theorem clock_debug_rate_spec (clk : Clk) (v : Nat) :
    (clk.flags &&& CLK_MAX ≠ 0 →
      (clock_debug_rate_set clk v).2 =
        ClkCall.setMaxRateC v ::
          [if clk.flags &&& CLK_MIN ≠ 0 then ClkCall.setMinRateC v
           else ClkCall.setRateC v]) ∧
    (clk.flags &&& CLK_MAX = 0 →
      (clock_debug_rate_set clk v).2 =
        [if clk.flags &&& CLK_MIN ≠ 0 then ClkCall.setMinRateC v
         else ClkCall.setRateC v]) ∧
    (clk.flags &&& CLK_MIN ≠ 0 →
      (clock_debug_rate_set clk v).1 = clk.set_min_rate v) ∧
    (clk.flags &&& CLK_MIN = 0 →
      (clock_debug_rate_set clk v).1 = clk.set_rate v) ∧
    clock_debug_rate_get clk = ((0, clk.get_rate), [ClkCall.getRateC]) := by
  refine ⟨fun hmax => ?_, fun hmax => ?_, fun hmin => ?_, fun hmin => ?_, rfl⟩ <;>
    by_cases h : clk.flags &&& CLK_MIN = 0 <;>
      simp_all [clock_debug_rate_set]

/-- C1, witness: the amended theorem applied to `sampleMaxClk` (flags =
`CLK_MAX`) and value 5. -/
theorem clock_debug_rate_spec_witness :
    (clock_debug_rate_set sampleMaxClk 5).2 =
      [ClkCall.setMaxRateC 5, ClkCall.setRateC 5] ∧
    (clock_debug_rate_set sampleMaxClk 5).1 = sampleMaxClk.set_rate 5 := by
  have h1 := (clock_debug_rate_spec sampleMaxClk 5).1 (by decide)
  have h2 := (clock_debug_rate_spec sampleMaxClk 5).2.2.2.1 (by decide)
  refine ⟨?_, h2⟩
  simpa using h1

/-- C4: an enable-file write of a nonzero value calls the clock's
`enable` operation and returns its result, a write of 0 calls `disable`
(returning 0), and an enable-file read stores `is_enabled`'s result
(cast to u64) with status 0. -/
theorem clock_debug_enable_spec (clk : Clk) (v : Nat) :
    (v ≠ 0 →
      clock_debug_enable_set clk v = (clk.ops.enable clk.id, [ClkCall.enableC])) ∧
    clock_debug_enable_set clk 0 = (0, [ClkCall.disableC]) ∧
    clock_debug_enable_get clk =
      ((0, u64ofInt (clk.ops.is_enabled clk.id)), [ClkCall.isEnabledC clk.id]) := by
  refine ⟨fun hv => ?_, ?_, rfl⟩
  · simp [clock_debug_enable_set, hv]
  · simp [clock_debug_enable_set]

/-- C4, witness: the theorem applied to `sampleClk` and the nonzero
value 2. -/
theorem clock_debug_enable_spec_witness :
    clock_debug_enable_set sampleClk 2 = (sampleClk.ops.enable sampleClk.id, [ClkCall.enableC]) :=
  (clock_debug_enable_spec sampleClk 2).1 (by decide)

/-- C5: an is_local read yields 1 exactly when the clock's operation
table is not `clk_ops_remote`, yields 0 exactly when it is, and the
`is_local` file operations carry no write handler. -/
theorem clock_debug_local_spec (clk : Clk) :
    ((clock_debug_local_get clk).1.2 = 1 ↔ clk.ops.tag ≠ clk_ops_remote.tag) ∧
    ((clock_debug_local_get clk).1.2 = 0 ↔ clk.ops.tag = clk_ops_remote.tag) ∧
    clock_local_fops.setH = none := by
  refine ⟨?_, ?_, rfl⟩ <;>
    by_cases h : clk.ops.tag = clk_ops_remote.tag <;>
      simp [clock_debug_local_get, h]

/-- C10: calling `clock_debug_add` while `debugfs_base` is still NULL
returns `-ENOMEM` at once and leaves the filesystem untouched (the model
of the function makes no clock-operation call at all). -/
theorem clock_debug_add_before_init (alloc : Nat → Bool)
    (fs : List (List String)) (clk : Clk) :
    clock_debug_add alloc none fs clk = some (-ENOMEM, fs) := rfl

/-- C3: `clock_debug_init` returns `-ENOMEM` when creation of the `clk`
root directory fails or when creation of the `debug_suspend` file fails;
in the latter case the partially created root directory is removed
recursively (the filesystem is restored), and on success it returns 0
with the root directory and `debug_suspend` file created. -/
theorem clock_debug_init_spec (alloc : Nat → Bool) (fs : List (List String))
    (hfresh : ∀ p ∈ fs, List.isPrefixOf clkRoot p = false) :
    (alloc 0 = false → clock_debug_init alloc fs = (-ENOMEM, none, fs)) ∧
    (alloc 0 = true → alloc 1 = false →
      clock_debug_init alloc fs = (-ENOMEM, some clkRoot, fs)) ∧
    (alloc 0 = true → alloc 1 = true →
      clock_debug_init alloc fs =
        (0, some clkRoot, (clkRoot ++ ["debug_suspend"]) :: clkRoot :: fs)) := by
  refine ⟨fun h0 => ?_, fun h0 h1 => ?_, fun h0 h1 => ?_⟩
  · simp [clock_debug_init, h0]
  · have hclean : removeRecursive (clkRoot :: fs) clkRoot = fs := by
      rw [removeRecursive_cons_self, removeRecursive_fresh fs clkRoot hfresh]
    simp [clock_debug_init, h0, h1, hclean]
  · simp [clock_debug_init, h0, h1]

/-- C3, witness: the theorem applied to an oracle on which the root
directory succeeds and the `debug_suspend` file fails, over a filesystem
holding one unrelated entry, which the failing call leaves unchanged. -/
theorem clock_debug_init_spec_witness :
    clock_debug_init (fun i => decide (i = 0)) [["proc"]] =
      (-ENOMEM, some clkRoot, [["proc"]]) :=
  (clock_debug_init_spec (fun i => decide (i = 0)) [["proc"]]
      (by decide)).2.1 (by decide) (by decide)

/-- C8: with `debug_suspend` 0 the suspend hook prints nothing and makes
no clock call; with it nonzero it queries `is_enabled` once per clock in
list order, prints a header, one tab-indented name line per enabled
clock, and a final line carrying the count of enabled clocks (or the
no-clocks message when that count is 0). -/
theorem clock_debug_print_enabled_spec (ds : Nat) (clocks : List Clk) :
    clock_debug_print_enabled 0 clocks = ([], []) ∧
    (ds ≠ 0 →
      (clock_debug_print_enabled ds clocks).2 =
        clocks.map (fun c => ClkCall.isEnabledC c.id) ∧
      (clock_debug_print_enabled ds clocks).1 =
        "Enabled clocks:" ::
          (clocks.filter fun c => c.ops.is_enabled c.id != 0).map
            (fun c => "\t" ++ c.dbg_name)
          ++ [if (clocks.countP fun c => c.ops.is_enabled c.id != 0) = 0 then
                "No clocks enabled."
              else
                "Enabled clock count: " ++
                  toString (clocks.countP fun c => c.ops.is_enabled c.id != 0)]) := by
  refine ⟨rfl, fun h => ⟨?_, ?_⟩⟩ <;>
    simp [clock_debug_print_enabled, h, List.countP_eq_length_filter]

/-- C8, witness: the theorem applied to `debug_suspend = 1` and the
single-clock list `[sampleClk]`, whose clock reports enabled. -/
theorem clock_debug_print_enabled_spec_witness :
    (clock_debug_print_enabled 1 [sampleClk]).1 =
      ["Enabled clocks:", "\tUART_CLK", "Enabled clock count: 1"] := by
  rw [((clock_debug_print_enabled_spec 1 [sampleClk]).2 (by decide)).2]
  decide

/-- Auxiliary: the `list_rates_show` loop starting at index `i`, when the
callback is nonnegative on the next `k` indices and negative at the one
after, terminates within any fuel above `k` and prints exactly those `k`
values. -/
theorem listRatesLoop_spec (lr : Nat → Int) :
    ∀ (k i fuel : Nat), (∀ j, j < k → 0 ≤ lr (i + j)) → lr (i + k) < 0 →
      k < fuel →
      listRatesLoop lr i fuel = some ((List.range k).map fun j => lr (i + j)) := by
  intro k
  induction k with
  | zero =>
    intro i fuel _ hneg hfuel
    match fuel, hfuel with
    | f + 1, _ =>
      have : lr i < 0 := by simpa using hneg
      simp [listRatesLoop, this]
  | succ k ih =>
    intro i fuel hnn hneg hfuel
    match fuel, hfuel with
    | f + 1, hfuel =>
      have hnni : 0 ≤ lr i := by simpa using hnn 0 (Nat.succ_pos k)
      have hrec := ih (i + 1) f
        (fun j hj => by
          have := hnn (j + 1) (Nat.succ_lt_succ hj)
          simpa [Nat.add_assoc, Nat.add_comm 1 j] using this)
        (by simpa [Nat.add_assoc, Nat.add_comm 1 k] using hneg)
        (Nat.lt_of_succ_lt_succ hfuel)
      have hnot : ¬ lr i < 0 := not_lt.mpr hnni
      simp [listRatesLoop, hnot, hrec, List.range_succ_eq_map,
        Nat.add_assoc, Nat.add_comm 1]

/-- C7: when the clock's `list_rate` callback is nonnegative below `k`
and negative at `k`, reading `list_rates` terminates (for any fuel above
`k`) and prints exactly `list_rate(id, 0) .. list_rate(id, k-1)`, one
value per line. -/
theorem list_rates_show_spec (lr : Nat → Int) (k fuel : Nat)
    (hnn : ∀ j, j < k → 0 ≤ lr j) (hneg : lr k < 0) (hfuel : k < fuel) :
    list_rates_show lr fuel = some ((List.range k).map lr) := by
  have h := listRatesLoop_spec lr k 0 fuel (by simpa using hnn)
    (by simpa using hneg) hfuel
  simpa [list_rates_show] using h

/-- C7, witness: the theorem applied to the sample callback that lists
two rates (7 at indices 0 and 1) and returns -1 from index 2 on. -/
theorem list_rates_show_spec_witness :
    list_rates_show (fun n => if n < 2 then (7 : Int) else -1) 3 =
      some [7, 7] := by
  rw [list_rates_show_spec (fun n => if n < 2 then (7 : Int) else -1) 2 3
    (by decide) (by decide) (by decide)]
  decide

/-- C2: when the per-clock directory was created but any of the
subsequent file creations fails, `clock_debug_add` removes the clock's
partial directory tree recursively and returns `-ENOMEM`, leaving the
filesystem — in particular every previously registered clock's tree —
exactly as it was. -/
theorem clock_debug_add_failure_cleanup (alloc : Nat → Bool) (b : List String)
    (fs : List (List String)) (clk : Clk)
    (h48 : clk.dbg_name.length ≤ 48)
    (h0 : alloc 0 = true)
    (hfail : (createFiles alloc 1 (b ++ [lowerStr clk.dbg_name])
        ((b ++ [lowerStr clk.dbg_name]) :: fs) (fileNames clk.ops)).1 = false)
    (hfresh : ∀ p ∈ fs,
      List.isPrefixOf (b ++ [lowerStr clk.dbg_name]) p = false) :
    clock_debug_add alloc (some b) fs clk = some (-ENOMEM, fs) := by
  have hname : debugfsName clk.dbg_name = some (lowerStr clk.dbg_name) := by
    simp [debugfsName, h48]
  have hclean : removeRecursive
      (createFiles alloc 1 (b ++ [lowerStr clk.dbg_name])
        ((b ++ [lowerStr clk.dbg_name]) :: fs) (fileNames clk.ops)).2
      (b ++ [lowerStr clk.dbg_name]) = fs := by
    unfold removeRecursive
    rw [createFiles_filter alloc (b ++ [lowerStr clk.dbg_name])
      (fileNames clk.ops) 1 ((b ++ [lowerStr clk.dbg_name]) :: fs)]
    have hd : List.isPrefixOf (b ++ [lowerStr clk.dbg_name])
        (b ++ [lowerStr clk.dbg_name]) = true := by
      simp [List.isPrefixOf_iff_prefix]
    have hstep : List.filter
        (fun q => !List.isPrefixOf (b ++ [lowerStr clk.dbg_name]) q)
        ((b ++ [lowerStr clk.dbg_name]) :: fs) =
        List.filter (fun q => !List.isPrefixOf (b ++ [lowerStr clk.dbg_name]) q) fs := by
      simp [hd]
    rw [hstep]
    exact removeRecursive_fresh fs (b ++ [lowerStr clk.dbg_name]) hfresh
  simp [clock_debug_add, hname, h0, hfail, hclean]

/-- C2, witness: the theorem applied on an oracle where the directory
creation succeeds and the first file creation (`rate`) fails, over an
empty filesystem. -/
theorem clock_debug_add_failure_cleanup_witness :
    clock_debug_add (fun i => decide (i = 0)) (some clkRoot) [] sampleClk =
      some (-ENOMEM, []) :=
  clock_debug_add_failure_cleanup (fun i => decide (i = 0)) clkRoot [] sampleClk
    (by decide) (by decide) (by decide) (by decide)

/-- Auxiliary: a file path `d ++ [x]` occurs in the filesystem produced
by a fully successful `clock_debug_add` over a tree with nothing under
`d` exactly when `x` is one of the created file names. -/
theorem mem_created_iff (d : List String) (fs : List (List String))
    (names : List String) (x : String)
    (hfresh : ∀ p ∈ fs, List.isPrefixOf d p = false) :
    ((d ++ [x]) ∈ ((names.reverse.map fun n => d ++ [n]) ++ d :: fs)) ↔
      x ∈ names := by
  simp only [List.mem_append, List.mem_map, List.mem_reverse, List.mem_cons]
  constructor
  · rintro (⟨n, hn, he⟩ | he | hf)
    · have h1 : n = x := by
        have h2 := List.append_cancel_left he
        simpa using h2
      exact h1 ▸ hn
    · have := congrArg List.length he
      simp at this
    · have h1 := hfresh _ hf
      rw [isPrefixOf_append_true d [x]] at h1
      exact absurd h1 (by simp)
  · intro hx
    exact Or.inl ⟨x, hx, rfl⟩

/-- Auxiliary: which names `clock_debug_add` tries to create — the three
unconditional files, plus `measure` exactly when `measure_rate` is
implemented and `list_rates` exactly when `list_rate` is. -/
theorem mem_fileNames (ops : ClkOps) :
    "rate" ∈ fileNames ops ∧ "enable" ∈ fileNames ops ∧
    "is_local" ∈ fileNames ops ∧
    (("measure" ∈ fileNames ops) ↔ ops.measure_rate.isSome = true) ∧
    (("list_rates" ∈ fileNames ops) ↔ ops.list_rate.isSome = true) := by
  rcases h1 : ops.measure_rate with _ | f <;>
    rcases h2 : ops.list_rate with _ | g <;>
      simp [fileNames, h1, h2]

/-- Auxiliary: a fully successful `clock_debug_add` returns 0 and the
filesystem extended with the clock directory and its files. -/
theorem clock_debug_add_success (alloc : Nat → Bool) (b : List String)
    (fs : List (List String)) (clk : Clk)
    (h48 : clk.dbg_name.length ≤ 48) (hall : ∀ i, alloc i = true) :
    clock_debug_add alloc (some b) fs clk =
      some (0, ((fileNames clk.ops).reverse.map
          fun n => (b ++ [lowerStr clk.dbg_name]) ++ [n])
        ++ (b ++ [lowerStr clk.dbg_name]) :: fs) := by
  have hname : debugfsName clk.dbg_name = some (lowerStr clk.dbg_name) := by
    simp [debugfsName, h48]
  have hcf := createFiles_all_success alloc hall (b ++ [lowerStr clk.dbg_name])
    (fileNames clk.ops) 1 ((b ++ [lowerStr clk.dbg_name]) :: fs)
  simp [clock_debug_add, hname, hall 0, hcf]

/-- C6: a fully successful registration creates the `rate`, `enable` and
`is_local` files unconditionally, creates `measure` exactly when the
clock's `measure_rate` operation is implemented, and creates
`list_rates` exactly when its `list_rate` operation is implemented. -/
theorem clock_debug_add_file_presence (alloc : Nat → Bool) (b : List String)
    (fs : List (List String)) (clk : Clk)
    (h48 : clk.dbg_name.length ≤ 48) (hall : ∀ i, alloc i = true)
    (hfresh : ∀ p ∈ fs,
      List.isPrefixOf (b ++ [lowerStr clk.dbg_name]) p = false) :
    ∃ fs2, clock_debug_add alloc (some b) fs clk = some (0, fs2) ∧
      (b ++ [lowerStr clk.dbg_name] ++ ["rate"]) ∈ fs2 ∧
      (b ++ [lowerStr clk.dbg_name] ++ ["enable"]) ∈ fs2 ∧
      (b ++ [lowerStr clk.dbg_name] ++ ["is_local"]) ∈ fs2 ∧
      (((b ++ [lowerStr clk.dbg_name] ++ ["measure"]) ∈ fs2) ↔
        clk.ops.measure_rate.isSome = true) ∧
      (((b ++ [lowerStr clk.dbg_name] ++ ["list_rates"]) ∈ fs2) ↔
        clk.ops.list_rate.isSome = true) := by
  refine ⟨_, clock_debug_add_success alloc b fs clk h48 hall, ?_, ?_, ?_, ?_, ?_⟩ <;>
    rw [mem_created_iff (b ++ [lowerStr clk.dbg_name]) fs (fileNames clk.ops) _ hfresh]
  · exact (mem_fileNames clk.ops).1
  · exact (mem_fileNames clk.ops).2.1
  · exact (mem_fileNames clk.ops).2.2.1
  · exact (mem_fileNames clk.ops).2.2.2.1
  · exact (mem_fileNames clk.ops).2.2.2.2

/-- C6, witness: the theorem applied to `sampleClk` (both optional
operations implemented) over an empty filesystem with an all-success
oracle. -/
theorem clock_debug_add_file_presence_witness :
    ∃ fs2, clock_debug_add (fun _ => true) (some clkRoot) [] sampleClk =
        some (0, fs2) ∧
      (clkRoot ++ [lowerStr sampleClk.dbg_name] ++ ["rate"]) ∈ fs2 ∧
      (clkRoot ++ [lowerStr sampleClk.dbg_name] ++ ["measure"]) ∈ fs2 := by
  obtain ⟨fs2, h1, h2, _, _, h5, _⟩ :=
    clock_debug_add_file_presence (fun _ => true) clkRoot [] sampleClk
      (by decide) (fun _ => rfl) (by decide)
  exact ⟨fs2, h1, h2, h5.mpr (by decide)⟩

/-- A clock whose `dbg_name` has 60 characters — more than fit the
49-byte `strncpy` into `char temp[50]` of `clock_debug_add`. -/
def longNameClk : Clk := { sampleClk with dbg_name := String.mk (List.replicate 60 'A') }

/-- C9, counterexample: registering a clock whose name has 60 characters
does not create a directory named by the lowercased `dbg_name` — the
copy buffer is left without a terminator and the lowercasing loop reads
indeterminate memory, so the registration's behaviour is undefined
(modelled as `none`) rather than producing the claimed directory. -/
theorem clock_debug_add_long_name_undefined :
    clock_debug_add (fun _ => true) (some clkRoot) [] longNameClk = none ∧
    longNameClk.dbg_name.length = 60 := by
  constructor <;> decide

/-- C9, amended: for every clock whose `dbg_name` has at most 48
characters (so that the 49-byte `strncpy` terminates the buffer), the
per-clock directory created under the root is named by `dbg_name` with
every character lowercased; for longer names the buffer is left
unterminated and the behaviour is undefined. -/
theorem clock_debug_add_dir_name (alloc : Nat → Bool) (b : List String)
    (fs : List (List String)) (clk : Clk)
    (h48 : clk.dbg_name.length ≤ 48) (hall : ∀ i, alloc i = true) :
    ∃ fs2, clock_debug_add alloc (some b) fs clk = some (0, fs2) ∧
      (b ++ [lowerStr clk.dbg_name]) ∈ fs2 := by
  refine ⟨_, clock_debug_add_success alloc b fs clk h48 hall, ?_⟩
  exact List.mem_append.mpr (Or.inr (List.mem_cons_self _ _))

/-- C9, witness: the amended theorem applied to `sampleClk`, whose
`dbg_name` "UART_CLK" lowercases to "uart_clk". -/
theorem clock_debug_add_dir_name_witness :
    ∃ fs2, clock_debug_add (fun _ => true) (some clkRoot) [] sampleClk =
        some (0, fs2) ∧ ["clk", "uart_clk"] ∈ fs2 := by
  obtain ⟨fs2, h1, h2⟩ := clock_debug_add_dir_name (fun _ => true) clkRoot []
    sampleClk (by decide) (fun _ => rfl)
  have he : clkRoot ++ [lowerStr sampleClk.dbg_name] = ["clk", "uart_clk"] := by
    decide
  exact ⟨fs2, h1, he ▸ h2⟩

end ClockDebug
